import Mathlib

/-!
The classes stdx::scope_guard and qlibs::default_allocator_policy

Verification development for `vcpkg-overlays/stdx/files/include/stdx/scope_guard.hpp` and
`vcpkg-overlays/qlibs-core/files/include/qlibs/allocator.hpp`.

The class template `scope_guard<F>` has two data members, `F fn_` and `bool active_`.
Its member functions are embedded as state-passing functions: each takes the members of
the object(s) it touches together with the execution environment and returns the members
as the function body leaves them together with the resulting environment.

An action `F` is embedded as a transformer of the program state `W` it acts on.  The
environment is instrumented with a counter of evaluations of the call expression `fn_()`,
so that "the action is invoked k times" is a statement about that counter.

`std::size_t` values are natural numbers below `2 ^ w`, with `w` the width of the type,
and the arithmetic on them is reduced modulo `2 ^ w`.
-/

namespace qlibs

/-- Width in bits of `std::size_t` on the 64-bit targets the overlay is built for. -/
def size_t_bits : Nat := 64

namespace default_allocator_policy

/-- Member function of lines 9-11 of `allocator.hpp`,
`constexpr std::size_t grow(std::size_t current) const noexcept
   { return current == 0 ? 8 : current * 2U; }`,
for a `std::size_t` of `w` bits: the literal `8` and the product `current * 2U` are values
of the unsigned type, that is, reduced modulo `2 ^ w`. -/
def grow (w : Nat) (current : Nat) : Nat :=
  if current = 0 then 8 % 2 ^ w else (current * 2) % 2 ^ w

end default_allocator_policy

end qlibs

namespace stdx

/-- Execution environment of a guard: `world` is the program state the action acts on,
`calls` is the number of evaluations of `fn_()` performed so far. -/
structure Env (W : Type) where
  world : W
  calls : Nat

/-- Evaluation of the call expression `fn_()` of line 17: the action transforms the
program state, and the evaluation is counted. -/
def Env.invoke {W : Type} (fn : W → W) (e : Env W) : Env W :=
  { world := fn e.world, calls := e.calls + 1 }

/-- Data members of `scope_guard<F>` (lines 24-25): `F fn_; bool active_;`. -/
structure scope_guard (W : Type) where
  fn_ : W → W
  active_ : Bool

namespace scope_guard

variable {W : Type}

/-- Constructor of line 11,
`explicit scope_guard(F&& fn) noexcept : fn_(static_cast<F&&>(fn)), active_(true) {}`.
The body is empty: the environment is returned as received. -/
def ctor (fn : W → W) (e : Env W) : scope_guard W × Env W :=
  ({ fn_ := fn, active_ := true }, e)

/-- Move constructor of line 12,
`scope_guard(scope_guard&& other) noexcept
   : fn_(static_cast<F&&>(other.fn_)), active_(other.active_) { other.active_ = false; }`.
Returns the new object, then `other` as the body leaves it, then the environment.  The
`fn_` member of `other` is left in place: with `active_` cleared it is never called. -/
def move_ctor (other : scope_guard W) (e : Env W) : scope_guard W × scope_guard W × Env W :=
  ({ fn_ := other.fn_, active_ := other.active_ }, { other with active_ := false }, e)

/-- Destructor body of lines 15-19, `~scope_guard() { if (active_) { fn_(); } }`.
Returns the members as the body leaves them (it assigns to neither) and the environment. -/
def dtor (g : scope_guard W) (e : Env W) : scope_guard W × Env W :=
  if g.active_ then (g, e.invoke g.fn_) else (g, e)

/-- Member function of line 21, `void release() noexcept { active_ = false; }`. -/
def release (g : scope_guard W) (e : Env W) : scope_guard W × Env W :=
  ({ g with active_ := false }, e)

end scope_guard

/-! ## Straight-line scenarios -/

open scope_guard

/-- Scenario `{ scope_guard g(fn); }`: construct, then leave the scope. -/
def scenario_construct_destroy {W : Type} (fn : W → W) (e : Env W) : Env W :=
  let (g, e1) := ctor fn e
  (dtor g e1).2

/-- Scenario `{ ...; g.release(); }` on an existing guard `g`: release, then leave the
scope. -/
def scenario_release_destroy {W : Type} (g : scope_guard W) (e : Env W) : Env W :=
  let (g1, e1) := release g e
  (dtor g1 e1).2

/-- Scenario `{ scope_guard g(fn); g.release(); }`. -/
def scenario_construct_release_destroy {W : Type} (fn : W → W) (e : Env W) : Env W :=
  let (g, e1) := ctor fn e
  scenario_release_destroy g e1

/-- Scenario `scope_guard g2(std::move(g1));` followed by the destruction of `g1` and
then of `g2` (`g1_first = true`), or of `g2` and then of `g1` (`g1_first = false`). -/
def scenario_move_destroy {W : Type} (g1 : scope_guard W) (g1_first : Bool) (e : Env W) :
    Env W :=
  let (g2, g1', e1) := move_ctor g1 e
  if g1_first then (dtor g2 (dtor g1' e1).2).2 else (dtor g1' (dtor g2 e1).2).2

/-- The action "increment counter" of the concrete scenarios; the program state is the
counter. -/
def increment_counter : Nat → Nat := fun c => c + 1

/-- Scenario `scope_guard g1(std::move(g0)); ...; scope_guard gn(std::move(g(n-1)));`:
`n` successive move constructions starting from `g`, each from the guard the previous one
created.  Returns the moved-from guards `g0, ..., g(n-1)` in order, the last guard `gn`,
and the environment. -/
def move_chain {W : Type} : Nat → scope_guard W → Env W →
    List (scope_guard W) × scope_guard W × Env W
  | 0, g, e => ([], g, e)
  | n + 1, g, e =>
    let (g2, g', e1) := move_ctor g e
    let (srcs, last, e2) := move_chain n g2 e1
    (g' :: srcs, last, e2)

/-- Scenario `scope_guard g0(fn);` followed by `n` successive move constructions
`g0 -> g1 -> ... -> gn`. -/
def scenario_chain {W : Type} (fn : W → W) (n : Nat) (e : Env W) :
    List (scope_guard W) × scope_guard W × Env W :=
  let (g0, e1) := ctor fn e
  move_chain n g0 e1

/-- Destruction of the guards of a list, one after the other in list order. -/
def dtor_all {W : Type} : List (scope_guard W) → Env W → Env W
  | [], e => e
  | g :: gs, e => dtor_all gs (dtor g e).2

/-! ## Programs over a family of guards

A program that constructs one guard and then moves, releases and destroys the guards
derived from it is embedded as a list of operations over a table of guard objects.  The
language ends the lifetime of an object when its destructor runs, and a destructor runs
once per object; the table records that with the `alive` flag.  An operation that names
no object within its lifetime is not a step of any program and leaves the state as it is.
-/

/-- A guard object of the running program: its members, and whether the object is within
its lifetime (constructed, destructor not yet run). -/
structure Slot (W : Type) where
  obj : scope_guard W
  alive : Bool

/-- State of the running program: the guard objects created so far, in order of creation,
and the environment. -/
structure Sys (W : Type) where
  slots : List (Slot W)
  env : Env W

/-- Operations of the interface on the guard object number `i`: `move i` is
`scope_guard g(std::move(gi));` (the new object is appended to the table), `release i` is
`gi.release();`, `destroy i` is the end of the scope of `gi`. -/
inductive Op where
  | move (i : Nat)
  | release (i : Nat)
  | destroy (i : Nat)

/-- A slot counts as live and armed when the object is within its lifetime and its
`active_` member is set. -/
def Slot.live_armed {W : Type} (sl : Slot W) : Bool :=
  sl.alive && sl.obj.active_

/-- State after `scope_guard g0(fn);`. -/
def Sys.init {W : Type} (fn : W → W) (e : Env W) : Sys W :=
  let (g, e1) := ctor fn e
  { slots := [{ obj := g, alive := true }], env := e1 }

/-- One operation of the program. -/
def Sys.step {W : Type} (s : Sys W) : Op → Sys W
  | .move i =>
    match s.slots[i]? with
    | some sl =>
      if sl.alive then
        let (gnew, other', e1) := move_ctor sl.obj s.env
        { slots := s.slots.set i { obj := other', alive := true } ++
            [{ obj := gnew, alive := true }],
          env := e1 }
      else s
    | none => s
  | .release i =>
    match s.slots[i]? with
    | some sl =>
      if sl.alive then
        let (g', e1) := release sl.obj s.env
        { slots := s.slots.set i { obj := g', alive := true }, env := e1 }
      else s
    | none => s
  | .destroy i =>
    match s.slots[i]? with
    | some sl =>
      if sl.alive then
        let (g', e1) := dtor sl.obj s.env
        { slots := s.slots.set i { obj := g', alive := false }, env := e1 }
      else s
    | none => s

/-- A sequence of operations, from left to right. -/
def Sys.run {W : Type} (s : Sys W) (ops : List Op) : Sys W :=
  ops.foldl Sys.step s

/-- Number of guard objects that are within their lifetime and armed. -/
def Sys.armed_live {W : Type} (s : Sys W) : Nat :=
  s.slots.countP Slot.live_armed

/-! ## Exceptions

An action or a block that may fail is a transformer of a program state that records the
exception by which the call under evaluation has exited.  The guard is the same class:
`scope_guard (Ex S ε)`.

The text of the class leaves three things open, and each is a parameter here.
* The move constructor of the template argument `F`, which the member initialiser
  `fn_(static_cast<F&&>(...))` of both constructors calls, may exit by an exception.
* The destructor `~scope_guard()` is declared without a `noexcept`-specifier.  Its
  exception specification is then that of the destructors of its members `F fn_` and
  `bool active_`: it is non-throwing exactly when the destructor of `F` is.
* When a block exits by an exception, the guards of the block are destroyed if a handler
  is found in an enclosing scope.  When none is found, or the way to it crosses a function
  with a non-throwing exception specification, the program ends in `std::terminate` and
  the implementation decides whether the stack is unwound before; the same holds when the
  destructor called during unwinding exits by an exception.
-/

/-- Program state of a program with exceptions: `state` is the data of the program,
`raised` is the exception by which the call under evaluation has exited, if it has exited
by one.  An action that fails with `x` leaves `raised = some x`. -/
structure Ex (S ε : Type) where
  state : S
  raised : Option ε

/-- How a call or a block ends, as seen from the enclosing scope: it returns the result
`a`, or the exception `x` leaves it into the enclosing scope, or `std::terminate` has
been called. -/
inductive Outcome (α S ε : Type) where
  | returned (a : α) (e : Env (Ex S ε))
  | propagated (x : ε) (e : Env (Ex S ε))
  | terminated (e : Env (Ex S ε))

/-- The environment in which a call or block has ended. -/
def Outcome.env {α S ε : Type} : Outcome α S ε → Env (Ex S ε)
  | .returned _ e => e
  | .propagated _ e => e
  | .terminated e => e

/-- Entry of a call: no exception has been raised in it yet. -/
def enter_call {S ε : Type} (e : Env (Ex S ε)) : Env (Ex S ε) :=
  { e with world := { e.world with raised := none } }

/-- The environment in which the exception `x` is on its way out of the call. -/
def raise {S ε : Type} (x : ε) (e : Env (Ex S ε)) : Env (Ex S ε) :=
  { e with world := { e.world with raised := some x } }

/-- Evaluation of the member initialiser `fn_(static_cast<F&&>(...))`: the move
constructor of `F` runs; `F_move_raises` is the exception it exits by, if it exits by
one.  It is not a call of the action. -/
def F_move {S ε : Type} (F_move_raises : Option ε) (e : Env (Ex S ε)) : Env (Ex S ε) :=
  match F_move_raises with
  | none => e
  | some x => raise x e

/-- Call of the constructor of line 11, which is declared `noexcept`: when the member
initialiser of `fn_` exits by an exception, `std::terminate` is called; otherwise the
constructor completes as `ctor`. -/
def ctor_call {S ε : Type} (F_move_raises : Option ε) (fn : Ex S ε → Ex S ε)
    (e : Env (Ex S ε)) : Outcome (scope_guard (Ex S ε)) S ε :=
  let e1 := F_move F_move_raises (enter_call e)
  match e1.world.raised with
  | some _ => .terminated e1
  | none => .returned (ctor fn e1).1 (ctor fn e1).2

/-- Call of the move constructor of line 12, which is declared `noexcept`: when the member
initialiser of `fn_` exits by an exception, `std::terminate` is called; otherwise the
constructor completes as `move_ctor` and yields the new guard and `other` as it leaves
it. -/
def move_ctor_call {S ε : Type} (F_move_raises : Option ε) (other : scope_guard (Ex S ε))
    (e : Env (Ex S ε)) : Outcome (scope_guard (Ex S ε) × scope_guard (Ex S ε)) S ε :=
  let e1 := F_move F_move_raises (enter_call e)
  match e1.world.raised with
  | some _ => .terminated e1
  | none => .returned ((move_ctor other e1).1, (move_ctor other e1).2.1) (move_ctor other e1).2.2

/-- Call of `release()` of line 21, which is declared `noexcept`; its body calls nothing. -/
def release_call {S ε : Type} (g : scope_guard (Ex S ε)) (e : Env (Ex S ε)) :
    Outcome (scope_guard (Ex S ε)) S ε :=
  let e1 := (release g (enter_call e)).2
  match e1.world.raised with
  | some _ => .terminated e1
  | none => .returned (release g (enter_call e)).1 e1

/-- The counter-incrementing action in a program with exceptions; it does not fail. -/
def increment_ok : Ex Nat Nat → Ex Nat Nat :=
  fun u => { state := u.state + 1, raised := none }

/-- The destructor of a disarmed guard leaves the environment as it is. -/
theorem dtor_env_of_disarmed {W : Type} (g : scope_guard W) (e : Env W)
    (h : g.active_ = false) : (dtor g e).2 = e := by
  simp [dtor, h]

/-- The destructor of an armed guard invokes its action. -/
theorem dtor_env_of_armed {W : Type} (g : scope_guard W) (e : Env W)
    (h : g.active_ = true) : (dtor g e).2 = e.invoke g.fn_ := by
  simp [dtor, h]

/-- Destroying a list of guards has the effect of destroying its armed members. -/
theorem dtor_all_filter_armed {W : Type} (l : List (scope_guard W)) (e : Env W) :
    dtor_all l e = dtor_all (l.filter fun g => g.active_) e := by
  induction l generalizing e with
  | nil => rfl
  | cons g gs ih =>
    cases hg : g.active_
    · rw [List.filter_cons_of_neg (by simp [hg])]
      simp only [dtor_all]
      rw [dtor_env_of_disarmed g e hg]
      exact ih e
    · rw [List.filter_cons_of_pos (by simp [hg])]
      simp only [dtor_all]
      exact ih _

/-- A chain of moves leaves every source disarmed, hands the armed flag and the action of
the first guard to the last one, and does not touch the environment. -/
theorem move_chain_spec {W : Type} (n : Nat) (g : scope_guard W) (e : Env W) :
    (move_chain n g e).1.length = n ∧
    (∀ x ∈ (move_chain n g e).1, x.active_ = false) ∧
    (move_chain n g e).2.1.active_ = g.active_ ∧
    (move_chain n g e).2.1.fn_ = g.fn_ ∧
    (move_chain n g e).2.2 = e := by
  induction n generalizing g e with
  | zero => simp [move_chain]
  | succ n ih =>
    obtain ⟨h1, h2, h3, h4, h5⟩ := ih (move_ctor g e).1 (move_ctor g e).2.2
    simp only [move_chain]
    refine ⟨by simp [h1], ?_, h3, h4, h5⟩
    intro x hx
    rcases List.mem_cons.mp hx with hx | hx
    · rw [hx]; rfl
    · exact h2 x hx

/-- Replacing one entry of a table changes the count of a predicate by the difference
between the new and the old entry. -/
theorem countP_set_add {α : Type} (p : α → Bool) (l : List α) (i : Nat) (old x : α)
    (h : l[i]? = some old) :
    (l.set i x).countP p + (if p old then 1 else 0) =
      l.countP p + (if p x then 1 else 0) := by
  induction l generalizing i with
  | nil => simp at h
  | cons a t ih =>
    cases i with
    | zero =>
      simp only [List.getElem?_cons_zero, Option.some.injEq] at h
      subst h
      simp only [List.set_cons_zero, List.countP_cons]
      omega
    | succ j =>
      simp only [List.getElem?_cons_succ] at h
      have := ih j h
      simp only [List.set_cons_succ, List.countP_cons]
      omega

/-- No operation raises the sum of the number of live armed guards and the number of
invocations, and no operation lowers the number of invocations. -/
theorem Sys.step_budget {W : Type} (s : Sys W) (op : Op) :
    (s.step op).armed_live + (s.step op).env.calls ≤ s.armed_live + s.env.calls ∧
    s.env.calls ≤ (s.step op).env.calls := by
  cases op with
  | move i =>
    simp only [Sys.step]
    split
    · rename_i sl hsl
      split
      · rename_i ha
        have := countP_set_add Slot.live_armed s.slots i sl
          { obj := (move_ctor sl.obj s.env).2.1, alive := true } hsl
        simp only [Sys.armed_live, List.countP_append, List.countP_singleton]
        simp only [Slot.live_armed, move_ctor, ha, Bool.true_and] at this ⊢
        refine ⟨?_, Nat.le_refl _⟩
        simp only [Bool.false_eq_true, if_false] at this
        omega
      · exact ⟨Nat.le_refl _, Nat.le_refl _⟩
    · exact ⟨Nat.le_refl _, Nat.le_refl _⟩
  | release i =>
    simp only [Sys.step]
    split
    · rename_i sl hsl
      split
      · rename_i ha
        have := countP_set_add Slot.live_armed s.slots i sl
          { obj := (release sl.obj s.env).1, alive := true } hsl
        simp only [Sys.armed_live]
        simp only [Slot.live_armed, release, ha, Bool.true_and] at this ⊢
        refine ⟨?_, Nat.le_refl _⟩
        simp only [Bool.false_eq_true, if_false] at this
        omega
      · exact ⟨Nat.le_refl _, Nat.le_refl _⟩
    · exact ⟨Nat.le_refl _, Nat.le_refl _⟩
  | destroy i =>
    simp only [Sys.step]
    split
    · rename_i sl hsl
      split
      · rename_i ha
        have := countP_set_add Slot.live_armed s.slots i sl
          { obj := (dtor sl.obj s.env).1, alive := false } hsl
        simp only [Sys.armed_live]
        simp only [Slot.live_armed, ha, Bool.true_and, Bool.false_and,
          Bool.false_eq_true, if_false] at this ⊢
        cases hact : sl.obj.active_
        · simp only [hact, Bool.false_eq_true, if_false] at this
          rw [dtor_env_of_disarmed _ _ hact]
          omega
        · simp only [hact, if_true] at this
          rw [dtor_env_of_armed _ _ hact]
          simp only [Env.invoke]
          omega
      · exact ⟨Nat.le_refl _, Nat.le_refl _⟩
    · exact ⟨Nat.le_refl _, Nat.le_refl _⟩

/-- The bound of `Sys.step_budget`, along a sequence of operations. -/
theorem Sys.run_budget {W : Type} (s : Sys W) (ops : List Op) :
    (s.run ops).armed_live + (s.run ops).env.calls ≤ s.armed_live + s.env.calls ∧
    s.env.calls ≤ (s.run ops).env.calls := by
  induction ops generalizing s with
  | nil => exact ⟨Nat.le_refl _, Nat.le_refl _⟩
  | cons op rest ih =>
    have h1 := s.step_budget op
    have h2 := ih (s.step op)
    simp only [Sys.run, List.foldl_cons] at h2 ⊢
    omega

/-- An operation on the table leaves a disarmed guard object disarmed, whichever object
the operation names. -/
theorem Sys.step_keeps_disarmed {W : Type} (s : Sys W) (op : Op) (i : Nat) (sl : Slot W)
    (hi : s.slots[i]? = some sl) (h : sl.obj.active_ = false) :
    ∃ sl' : Slot W, (s.step op).slots[i]? = some sl' ∧ sl'.obj.active_ = false := by
  have hlt : i < s.slots.length := (List.getElem?_eq_some_iff.mp hi).1
  cases op with
  | move j =>
    simp only [Sys.step]
    split
    · rename_i slj hj
      split
      · simp only [move_ctor]
        rw [List.getElem?_append_left (by simpa using hlt)]
        by_cases hji : j = i
        · subst hji
          exact ⟨_, List.getElem?_set_self hlt, rfl⟩
        · exact ⟨sl, by rw [List.getElem?_set_ne hji]; exact hi, h⟩
      · exact ⟨sl, hi, h⟩
    · exact ⟨sl, hi, h⟩
  | release j =>
    simp only [Sys.step]
    split
    · rename_i slj hj
      split
      · simp only [release]
        by_cases hji : j = i
        · subst hji
          exact ⟨_, List.getElem?_set_self hlt, rfl⟩
        · exact ⟨sl, by rw [List.getElem?_set_ne hji]; exact hi, h⟩
      · exact ⟨sl, hi, h⟩
    · exact ⟨sl, hi, h⟩
  | destroy j =>
    simp only [Sys.step]
    split
    · rename_i slj hj
      split
      · by_cases hji : j = i
        · subst hji
          have hsl : slj = sl := Option.some.inj (hj.symm.trans hi)
          subst hsl
          refine ⟨_, List.getElem?_set_self hlt, ?_⟩
          simp [dtor, h]
        · exact ⟨sl, by rw [List.getElem?_set_ne hji]; exact hi, h⟩
      · exact ⟨sl, hi, h⟩
    · exact ⟨sl, hi, h⟩

/-- A disarmed guard object stays disarmed along every sequence of operations. -/
theorem Sys.run_keeps_disarmed {W : Type} (s : Sys W) (ops : List Op) (i : Nat)
    (sl : Slot W) (hi : s.slots[i]? = some sl) (h : sl.obj.active_ = false) :
    ∃ sl' : Slot W, (s.run ops).slots[i]? = some sl' ∧ sl'.obj.active_ = false := by
  induction ops generalizing s sl with
  | nil => exact ⟨sl, hi, h⟩
  | cons op rest ih =>
    obtain ⟨sl1, h1, h2⟩ := s.step_keeps_disarmed op i sl hi h
    exact ih (s.step op) sl1 h1 h2

/-- The destruction of a disarmed guard object leaves the environment as it is. -/
theorem Sys.destroy_disarmed_env {W : Type} (t : Sys W) (i : Nat) (sl : Slot W)
    (hi : t.slots[i]? = some sl) (h : sl.obj.active_ = false) :
    (t.step (.destroy i)).env = t.env := by
  simp only [Sys.step, hi]
  split
  · exact dtor_env_of_disarmed sl.obj t.env h
  · rfl

/-! ## The claims -/

/-- C1: a guard constructed from `fn` and destroyed with nothing in between invokes `fn`
exactly once: the call count grows by one and the program state is `fn` applied to the
state at scope exit.  With the counter-incrementing action the counter goes from 0 to 1. -/
theorem C1_construct_destroy_invokes_once :
    (∀ (W : Type) (fn : W → W) (e : Env W),
        scenario_construct_destroy fn e = e.invoke fn ∧
        (scenario_construct_destroy fn e).calls = e.calls + 1 ∧
        (scenario_construct_destroy fn e).world = fn e.world) ∧
    (scenario_construct_destroy increment_counter { world := 0, calls := 0 }).world = 1 ∧
    (scenario_construct_destroy increment_counter { world := 0, calls := 0 }).calls = 1 := by
  refine ⟨fun W fn e => ⟨rfl, rfl, rfl⟩, rfl, rfl⟩

/-- C2: for every guard `g`, armed or disarmed, `g.release()` followed by the destructor
of `g` invokes the action zero times: the environment (call count and program state) is
unchanged.  The same holds with other operations in between: in every program state, once
`release()` has been called on the live guard object `i`, then after every sequence `ops`
of further operations the destruction of `i` leaves the environment unchanged. -/
theorem C2_release_then_destroy_invokes_nothing {W : Type} (g : scope_guard W) (e : Env W)
    (s : Sys W) (i : Nat) (sl : Slot W) (hi : s.slots[i]? = some sl)
    (ha : sl.alive = true) (ops : List Op) :
    scenario_release_destroy g e = e ∧
    (scenario_release_destroy g e).calls = e.calls ∧
    (((s.step (.release i)).run ops).step (.destroy i)).env =
      ((s.step (.release i)).run ops).env := by
  refine ⟨rfl, rfl, ?_⟩
  have hlt : i < s.slots.length := (List.getElem?_eq_some_iff.mp hi).1
  have hrel : (s.step (.release i)).slots[i]? =
      some { obj := (release sl.obj s.env).1, alive := true } := by
    simp only [Sys.step, hi, ha, if_true]
    exact List.getElem?_set_self hlt
  obtain ⟨sl', h1, h2⟩ := (s.step (.release i)).run_keeps_disarmed ops i _ hrel rfl
  exact Sys.destroy_disarmed_env _ i sl' h1 h2

/-- C2 at the concrete scenario 2: a guard is constructed with the counter-incrementing
action, released and destroyed, and the counter stays 0; also with a move construction
from the released guard and the destruction of the new guard in between. -/
theorem C2_witness :
    (Sys.init increment_counter ⟨0, 0⟩).slots[0]? =
      some { obj := ⟨increment_counter, true⟩, alive := true } ∧
    (scenario_construct_release_destroy increment_counter ⟨0, 0⟩).world = 0 ∧
    (scenario_construct_release_destroy increment_counter ⟨0, 0⟩).calls = 0 ∧
    ((((Sys.init increment_counter ⟨0, 0⟩).step (.release 0)).run
        [.move 0, .destroy 1]).step (.destroy 0)).env =
      (((Sys.init increment_counter ⟨0, 0⟩).step (.release 0)).run
        [.move 0, .destroy 1]).env :=
  ⟨rfl,
   congrArg Env.world
     (C2_release_then_destroy_invokes_nothing (ctor increment_counter ⟨0, 0⟩).1 ⟨0, 0⟩
       (Sys.init increment_counter ⟨0, 0⟩) 0 _ rfl rfl []).1,
   (C2_release_then_destroy_invokes_nothing (ctor increment_counter ⟨0, 0⟩).1 ⟨0, 0⟩
       (Sys.init increment_counter ⟨0, 0⟩) 0 _ rfl rfl []).2.1,
   (C2_release_then_destroy_invokes_nothing (ctor increment_counter ⟨0, 0⟩).1 ⟨0, 0⟩
       (Sys.init increment_counter ⟨0, 0⟩) 0 _ rfl rfl [.move 0, .destroy 1]).2.2⟩

/-- C3: for every armed guard `g1`, after `scope_guard g2(std::move(g1))` the destructor
of `g1` invokes the action zero times (in whatever environment it runs), the destructor of
`g2` invokes the action of `g1` exactly once, and destroying both, in either order, invokes
it exactly once in total. -/
theorem C3_move_runs_action_once_on_destination {W : Type} (g1 : scope_guard W) (e : Env W)
    (h : g1.active_ = true) :
    (∀ e' : Env W, (dtor (move_ctor g1 e).2.1 e').2 = e') ∧
    (∀ e' : Env W, (dtor (move_ctor g1 e).1 e').2 = e'.invoke g1.fn_) ∧
    scenario_move_destroy g1 true e = e.invoke g1.fn_ ∧
    scenario_move_destroy g1 false e = e.invoke g1.fn_ ∧
    (scenario_move_destroy g1 true e).calls = e.calls + 1 ∧
    (scenario_move_destroy g1 false e).calls = e.calls + 1 := by
  have hsrc : ∀ e' : Env W, (dtor (move_ctor g1 e).2.1 e').2 = e' :=
    fun e' => dtor_env_of_disarmed _ e' rfl
  have hdst : ∀ e' : Env W, (dtor (move_ctor g1 e).1 e').2 = e'.invoke g1.fn_ :=
    fun e' => dtor_env_of_armed (move_ctor g1 e).1 e' h
  have h1 : scenario_move_destroy g1 true e = e.invoke g1.fn_ := by
    show (dtor (move_ctor g1 e).1 (dtor (move_ctor g1 e).2.1 e).2).2 = _
    rw [hsrc, hdst]
  have h2 : scenario_move_destroy g1 false e = e.invoke g1.fn_ := by
    show (dtor (move_ctor g1 e).2.1 (dtor (move_ctor g1 e).1 e).2).2 = _
    rw [hsrc, hdst]
  refine ⟨hsrc, hdst, h1, h2, ?_, ?_⟩
  · rw [h1]; rfl
  · rw [h2]; rfl

/-- C3 at the concrete scenario 3: an armed guard with the counter-incrementing action,
counter and call count starting at 0. -/
theorem C3_witness :
    ((⟨increment_counter, true⟩ : scope_guard Nat).active_ = true) ∧
    (scenario_move_destroy ⟨increment_counter, true⟩ true ⟨0, 0⟩).world = 1 ∧
    (scenario_move_destroy ⟨increment_counter, true⟩ true ⟨0, 0⟩).calls = 0 + 1 :=
  ⟨rfl,
   by rw [(C3_move_runs_action_once_on_destination ⟨increment_counter, true⟩ ⟨0, 0⟩ rfl).2.2.1]
      rfl,
   (C3_move_runs_action_once_on_destination ⟨increment_counter, true⟩ ⟨0, 0⟩ rfl).2.2.2.2.1⟩

/-- C4: for every chain of `n` successive move constructions `g0 -> g1 -> ... -> gn` that
starts from a freshly constructed guard (in particular for every `n >= 1`): the moves
invoke nothing, the destructor of each of `g0, ..., g(n-1)` invokes the action zero times,
the destructor of the last guard `gn` invokes it exactly once, and destroying all `n + 1`
guards, in any order, invokes it exactly once in total. -/
theorem C4_chain_runs_action_once_at_last_holder {W : Type} (fn : W → W) (n : Nat)
    (e : Env W) :
    (scenario_chain fn n e).1.length = n ∧
    (scenario_chain fn n e).2.2 = e ∧
    (∀ g ∈ (scenario_chain fn n e).1, ∀ e' : Env W, (dtor g e').2 = e') ∧
    (∀ e' : Env W, (dtor (scenario_chain fn n e).2.1 e').2 = e'.invoke fn) ∧
    (∀ order : List (scope_guard W),
      List.Perm order ((scenario_chain fn n e).1 ++ [(scenario_chain fn n e).2.1]) →
      dtor_all order (scenario_chain fn n e).2.2 = e.invoke fn ∧
      (dtor_all order (scenario_chain fn n e).2.2).calls = e.calls + 1) := by
  obtain ⟨h1, h2, h3, h4, h5⟩ := move_chain_spec n (ctor fn e).1 (ctor fn e).2
  have hlast : ∀ e' : Env W, (dtor (scenario_chain fn n e).2.1 e').2 = e'.invoke fn := by
    intro e'
    rw [dtor_env_of_armed _ _ (by simpa [scenario_chain, ctor] using h3)]
    exact congrArg (fun f => e'.invoke f) h4
  have htotal : ∀ order : List (scope_guard W),
      List.Perm order ((scenario_chain fn n e).1 ++ [(scenario_chain fn n e).2.1]) →
      dtor_all order (scenario_chain fn n e).2.2 = e.invoke fn := by
    intro order hp
    have hf := hp.filter (fun g => g.active_)
    have hsrc : ((scenario_chain fn n e).1.filter fun g => g.active_) = [] :=
      List.filter_eq_nil_iff.mpr (fun x hx => by simp [h2 x hx])
    have hl : (scenario_chain fn n e).2.1.active_ = true := h3
    rw [List.filter_append, hsrc, List.nil_append,
      List.filter_cons_of_pos (by simp [hl]), List.filter_nil, List.perm_singleton] at hf
    rw [dtor_all_filter_armed, hf]
    simp only [dtor_all]
    rw [hlast]
    exact congrArg (fun x => Env.invoke fn x) h5
  refine ⟨h1, h5, fun g hg e' => dtor_env_of_disarmed g e' (h2 g hg), hlast, ?_⟩
  intro order hp
  refine ⟨htotal order hp, ?_⟩
  rw [htotal order hp]
  rfl

/-- C4 at the chain `A -> B -> C` with the counter-incrementing action, the guards being
destroyed last-created first. -/
theorem C4_witness :
    List.Perm
      ((scenario_chain increment_counter 2 ⟨0, 0⟩).2.1 ::
        (scenario_chain increment_counter 2 ⟨0, 0⟩).1)
      ((scenario_chain increment_counter 2 ⟨0, 0⟩).1 ++
        [(scenario_chain increment_counter 2 ⟨0, 0⟩).2.1]) ∧
    (dtor_all
      ((scenario_chain increment_counter 2 ⟨0, 0⟩).2.1 ::
        (scenario_chain increment_counter 2 ⟨0, 0⟩).1)
      (scenario_chain increment_counter 2 ⟨0, 0⟩).2.2).calls = 0 + 1 :=
  ⟨(List.perm_append_singleton _ _).symm,
   ((C4_chain_runs_action_once_at_last_holder increment_counter 2 ⟨0, 0⟩).2.2.2.2 _
      (List.perm_append_singleton _ _).symm).2⟩

/-- C5: for a guard constructed from `fn` and every sequence of operations on the guards
derived from it (move construction from a live guard, release of a live guard, destruction
of a live guard, each guard being destroyed at most once), at every point `k` of the
sequence at most one live guard is armed, the action has been invoked at most once, and
it has not been invoked at all while a live guard is armed; over the whole sequence the
action is invoked at most once. -/
theorem C5_at_most_one_invocation_one_armed {W : Type} (fn : W → W) (e : Env W)
    (ops : List Op) (k : Nat) :
    ((Sys.init fn e).run (ops.take k)).armed_live ≤ 1 ∧
    ((Sys.init fn e).run (ops.take k)).env.calls ≤ e.calls + 1 ∧
    ((Sys.init fn e).run (ops.take k)).armed_live +
      ((Sys.init fn e).run (ops.take k)).env.calls ≤ e.calls + 1 ∧
    e.calls ≤ ((Sys.init fn e).run ops).env.calls ∧
    ((Sys.init fn e).run ops).env.calls ≤ e.calls + 1 := by
  have hk := (Sys.init fn e).run_budget (ops.take k)
  have hall := (Sys.init fn e).run_budget ops
  have h0 : (Sys.init fn e).armed_live = 1 := rfl
  have h1 : (Sys.init fn e).env.calls = e.calls := rfl
  omega

/-- C6: `release()` is idempotent, and on a guard that is already disarmed it returns the
guard and the environment unchanged. -/
theorem C6_release_idempotent {W : Type} (g : scope_guard W) (e : Env W) :
    release (release g e).1 (release g e).2 = release g e ∧
    (g.active_ = false → release g e = (g, e)) := by
  refine ⟨rfl, fun h => ?_⟩
  cases g with
  | mk fn a =>
    simp only at h
    subst h
    rfl

/-- C6 at a concrete disarmed guard. -/
theorem C6_witness :
    release (release (⟨increment_counter, false⟩ : scope_guard Nat) ⟨0, 0⟩).1
        (release (⟨increment_counter, false⟩ : scope_guard Nat) ⟨0, 0⟩).2 =
      release ⟨increment_counter, false⟩ ⟨0, 0⟩ ∧
    release (⟨increment_counter, false⟩ : scope_guard Nat) ⟨0, 0⟩ =
      (⟨increment_counter, false⟩, ⟨0, 0⟩) :=
  ⟨(C6_release_idempotent ⟨increment_counter, false⟩ ⟨0, 0⟩).1,
   (C6_release_idempotent ⟨increment_counter, false⟩ ⟨0, 0⟩).2 rfl⟩

/-- C7: move construction carries the state of the source over: the new guard has the
armed flag the source had before the move and holds the action of the source, the source
is disarmed afterwards, and no action is invoked.  When the source is disarmed, the new
guard is disarmed and its destructor invokes nothing. -/
theorem C7_move_ctor_carries_state {W : Type} (other : scope_guard W) (e : Env W) :
    (move_ctor other e).1.active_ = other.active_ ∧
    (move_ctor other e).1.fn_ = other.fn_ ∧
    (move_ctor other e).2.1.active_ = false ∧
    (move_ctor other e).2.2 = e ∧
    (other.active_ = false →
      (move_ctor other e).1.active_ = false ∧
      ∀ e' : Env W, dtor (move_ctor other e).1 e' = ((move_ctor other e).1, e')) := by
  refine ⟨rfl, rfl, rfl, rfl, fun h => ⟨h, fun e' => ?_⟩⟩
  simp [dtor, move_ctor, h]

/-- C7 at a released guard and at a moved-from guard as the source of the move. -/
theorem C7_witness :
    ((release (⟨increment_counter, true⟩ : scope_guard Nat) ⟨0, 0⟩).1.active_ = false) ∧
    (dtor (move_ctor (release (⟨increment_counter, true⟩ : scope_guard Nat) ⟨0, 0⟩).1
        ⟨0, 0⟩).1 ⟨0, 0⟩).2 = ⟨0, 0⟩ ∧
    (dtor (move_ctor (move_ctor (⟨increment_counter, true⟩ : scope_guard Nat) ⟨0, 0⟩).2.1
        ⟨0, 0⟩).1 ⟨0, 0⟩).2 = ⟨0, 0⟩ :=
  ⟨rfl,
   by rw [((C7_move_ctor_carries_state
        (release (⟨increment_counter, true⟩ : scope_guard Nat) ⟨0, 0⟩).1 ⟨0, 0⟩).2.2.2.2
        rfl).2 ⟨0, 0⟩],
   by rw [((C7_move_ctor_carries_state
        (move_ctor (⟨increment_counter, true⟩ : scope_guard Nat) ⟨0, 0⟩).2.1 ⟨0, 0⟩).2.2.2.2
        rfl).2 ⟨0, 0⟩]⟩

/-- C8: disarmed is absorbing.  For every guard object `sl` of a program state whose
`active_` member is clear: `release()` on it, being the source of a move construction and
its destructor each leave it disarmed, and after every sequence of operations of the
interface, on it or on any other guard object, it is still disarmed. -/
theorem C8_disarmed_is_absorbing {W : Type} (s : Sys W) (i : Nat) (sl : Slot W)
    (hi : s.slots[i]? = some sl) (h : sl.obj.active_ = false) :
    (∀ e : Env W,
      (release sl.obj e).1.active_ = false ∧
      (move_ctor sl.obj e).2.1.active_ = false ∧
      (dtor sl.obj e).1.active_ = false) ∧
    (∀ ops : List Op,
      ∃ sl' : Slot W, (s.run ops).slots[i]? = some sl' ∧ sl'.obj.active_ = false) := by
  refine ⟨fun e => ⟨rfl, rfl, ?_⟩, fun ops => s.run_keeps_disarmed ops i sl hi h⟩
  simp [dtor, h]

/-- C8 at a concrete program: a guard is constructed and released; it is then moved from,
released again and destroyed, and it is disarmed in the end. -/
theorem C8_witness :
    ((Sys.init increment_counter ⟨0, 0⟩).step (.release 0)).slots[0]? =
      some { obj := ⟨increment_counter, false⟩, alive := true } ∧
    (⟨increment_counter, false⟩ : scope_guard Nat).active_ = false ∧
    ∃ sl' : Slot Nat,
      ((((Sys.init increment_counter ⟨0, 0⟩).step (.release 0)).run
        [.move 0, .release 0, .destroy 0, .destroy 1]).slots[0]? = some sl') ∧
      sl'.obj.active_ = false :=
  ⟨rfl, rfl,
   (C8_disarmed_is_absorbing ((Sys.init increment_counter ⟨0, 0⟩).step (.release 0)) 0
      { obj := ⟨increment_counter, false⟩, alive := true } rfl rfl).2
      [.move 0, .release 0, .destroy 0, .destroy 1]⟩

/-- C9: construction from an action `fn` yields a guard that is armed and holds `fn`, and
construction invokes `fn` zero times: the environment, call count included, is returned
as received. -/
theorem C9_ctor_armed_and_silent {W : Type} (fn : W → W) (e : Env W) :
    (ctor fn e).1.active_ = true ∧
    (ctor fn e).1.fn_ = fn ∧
    (ctor fn e).2 = e ∧
    (ctor fn e).2.calls = e.calls :=
  ⟨rfl, rfl, rfl, rfl⟩

/-- C10, as stated, fails: the destructor body does not assign to `active_`.  For the
armed guard with the counter-incrementing action and the environment with counter and
call count 0, the members after the destructor are still armed, the action has been
invoked once, and running the destructor body on those members again invokes the action
a second time. -/
theorem C10_counterexample :
    (⟨increment_counter, true⟩ : scope_guard Nat).active_ = true ∧
    (dtor (⟨increment_counter, true⟩ : scope_guard Nat) ⟨0, 0⟩).1.active_ = true ∧
    (dtor (⟨increment_counter, true⟩ : scope_guard Nat) ⟨0, 0⟩).2.calls = 1 ∧
    (dtor (dtor (⟨increment_counter, true⟩ : scope_guard Nat) ⟨0, 0⟩).1
      (dtor (⟨increment_counter, true⟩ : scope_guard Nat) ⟨0, 0⟩).2).2.calls = 2 ∧
    ¬ (∀ (g : scope_guard Nat) (e : Env Nat), g.active_ = true →
        (dtor g e).1.active_ = false ∧
        (dtor (dtor g e).1 (dtor g e).2).2 = (dtor g e).2) := by
  refine ⟨rfl, rfl, rfl, rfl, fun hall => ?_⟩
  have h := (hall ⟨increment_counter, true⟩ ⟨0, 0⟩ rfl).1
  exact Bool.noConfusion h

/-- C10, amended: the destructor of an armed guard invokes the action exactly once and
leaves the members, the `active_` flag included, as they were.  No further invocation
follows because destruction ends the lifetime of the object: in a program, destroying
the live armed guard object `i` invokes the action once and takes the object out of the
live guards, and a further destruction of `i` changes nothing. -/
theorem C10_dtor_invokes_once_and_ends_lifetime {W : Type} (s : Sys W) (i : Nat)
    (g : scope_guard W) (hi : s.slots[i]? = some { obj := g, alive := true })
    (h : g.active_ = true) :
    (∀ e : Env W, dtor g e = (g, e.invoke g.fn_)) ∧
    (∀ e : Env W, (dtor g e).1.active_ = true ∧ (dtor g e).2.calls = e.calls + 1) ∧
    (s.step (.destroy i)).env = s.env.invoke g.fn_ ∧
    (s.step (.destroy i)).slots[i]? = some { obj := g, alive := false } ∧
    (s.step (.destroy i)).step (.destroy i) = s.step (.destroy i) := by
  have hlt : i < s.slots.length := (List.getElem?_eq_some_iff.mp hi).1
  have hd : ∀ e : Env W, dtor g e = (g, e.invoke g.fn_) := fun e => by simp [dtor, h]
  have hstep : s.step (.destroy i) =
      { slots := s.slots.set i { obj := g, alive := false }, env := s.env.invoke g.fn_ } := by
    simp only [Sys.step, hi, if_true, hd]
  have hslot : (s.step (.destroy i)).slots[i]? = some { obj := g, alive := false } := by
    rw [hstep]
    exact List.getElem?_set_self hlt
  refine ⟨hd, fun e => ⟨by rw [hd]; exact h, by rw [hd]; rfl⟩, by rw [hstep], hslot, ?_⟩
  generalize s.step (.destroy i) = t at hslot
  simp [Sys.step, hslot]

/-- C10 amended, at a concrete program: the freshly constructed guard with the
counter-incrementing action is destroyed, and destroyed again. -/
theorem C10_witness :
    (Sys.init increment_counter ⟨0, 0⟩).slots[0]? =
      some { obj := ⟨increment_counter, true⟩, alive := true } ∧
    (⟨increment_counter, true⟩ : scope_guard Nat).active_ = true ∧
    ((Sys.init increment_counter ⟨0, 0⟩).step (.destroy 0)).env =
      Env.invoke increment_counter ⟨0, 0⟩ ∧
    (((Sys.init increment_counter ⟨0, 0⟩).step (.destroy 0)).step (.destroy 0)) =
      (Sys.init increment_counter ⟨0, 0⟩).step (.destroy 0) :=
  ⟨rfl, rfl,
   (C10_dtor_invokes_once_and_ends_lifetime (Sys.init increment_counter ⟨0, 0⟩) 0
      ⟨increment_counter, true⟩ rfl rfl).2.2.1,
   (C10_dtor_invokes_once_and_ends_lifetime (Sys.init increment_counter ⟨0, 0⟩) 0
      ⟨increment_counter, true⟩ rfl rfl).2.2.2.2⟩

/-- C14, as stated, fails: when the move constructor of `F` exits by an exception (here
the error code 7), the constructor and the move constructor of the guard, both declared
`noexcept`, end in `std::terminate` and return no result state. -/
theorem C14_counterexample :
    ctor_call (some 7) increment_ok ⟨⟨0, none⟩, 0⟩ = .terminated ⟨⟨0, some 7⟩, 0⟩ ∧
    move_ctor_call (some 7) ⟨increment_ok, true⟩ ⟨⟨0, none⟩, 0⟩ =
      .terminated ⟨⟨0, some 7⟩, 0⟩ ∧
    ¬ (∀ (F_move_raises : Option Nat) (fn : Ex Nat Nat → Ex Nat Nat) (e : Env (Ex Nat Nat)),
        ∃ (g : scope_guard (Ex Nat Nat)) (e' : Env (Ex Nat Nat)),
          ctor_call F_move_raises fn e = .returned g e') := by
  refine ⟨rfl, rfl, fun hall => ?_⟩
  obtain ⟨g, e', h⟩ := hall (some 7) increment_ok ⟨⟨0, none⟩, 0⟩
  exact Outcome.noConfusion h

/-- C14, amended: `release` returns a result state for every input.  Construction and move
construction return their result state whenever the move constructor of `F` does not exit
by an exception, and end in `std::terminate` when it does; they never end with an
exception propagated to the caller.  None of the three invokes the action: the call count
is unchanged however the call ends. -/
theorem C14_ctor_move_release_outcomes {S ε : Type} (F_move_raises : Option ε)
    (fn : Ex S ε → Ex S ε) (g : scope_guard (Ex S ε)) (e : Env (Ex S ε)) :
    release_call g e = .returned ⟨g.fn_, false⟩ (enter_call e) ∧
    (F_move_raises = none →
      ctor_call F_move_raises fn e = .returned ⟨fn, true⟩ (enter_call e) ∧
      move_ctor_call F_move_raises g e =
        .returned (⟨g.fn_, g.active_⟩, ⟨g.fn_, false⟩) (enter_call e)) ∧
    (∀ x : ε, F_move_raises = some x →
      ctor_call F_move_raises fn e = .terminated (raise x (enter_call e)) ∧
      move_ctor_call F_move_raises g e = .terminated (raise x (enter_call e))) ∧
    (∀ (x : ε) (e' : Env (Ex S ε)),
      ctor_call F_move_raises fn e ≠ .propagated x e' ∧
      move_ctor_call F_move_raises g e ≠ .propagated x e' ∧
      release_call g e ≠ .propagated x e') ∧
    (ctor_call F_move_raises fn e).env.calls = e.calls ∧
    (move_ctor_call F_move_raises g e).env.calls = e.calls ∧
    (release_call g e).env.calls = e.calls := by
  cases F_move_raises with
  | none =>
    refine ⟨rfl, fun _ => ⟨rfl, rfl⟩, fun x h => by simp at h, fun x e' => ?_, rfl, rfl, rfl⟩
    exact ⟨fun h => Outcome.noConfusion h, fun h => Outcome.noConfusion h,
      fun h => Outcome.noConfusion h⟩
  | some x0 =>
    refine ⟨rfl, fun h => by simp at h, fun x h => ?_, fun x e' => ?_, rfl, rfl, rfl⟩
    · simp only [Option.some.injEq] at h
      subst h
      exact ⟨rfl, rfl⟩
    · exact ⟨fun h => Outcome.noConfusion h, fun h => Outcome.noConfusion h,
        fun h => Outcome.noConfusion h⟩

/-- C14 amended, at the counter-incrementing action with a move constructor of `F` that
does not exit by an exception. -/
theorem C14_witness :
    ctor_call (none : Option Nat) increment_ok ⟨⟨0, none⟩, 0⟩ =
      .returned ⟨increment_ok, true⟩ ⟨⟨0, none⟩, 0⟩ ∧
    move_ctor_call (none : Option Nat) ⟨increment_ok, true⟩ ⟨⟨0, none⟩, 0⟩ =
      .returned (⟨increment_ok, true⟩, ⟨increment_ok, false⟩) ⟨⟨0, none⟩, 0⟩ ∧
    release_call (⟨increment_ok, true⟩ : scope_guard (Ex Nat Nat)) ⟨⟨0, none⟩, 0⟩ =
      .returned ⟨increment_ok, false⟩ ⟨⟨0, none⟩, 0⟩ :=
  ⟨((C14_ctor_move_release_outcomes (none : Option Nat) increment_ok
      ⟨increment_ok, true⟩ ⟨⟨0, none⟩, 0⟩).2.1 rfl).1,
   ((C14_ctor_move_release_outcomes (none : Option Nat) increment_ok
      ⟨increment_ok, true⟩ ⟨⟨0, none⟩, 0⟩).2.1 rfl).2,
   (C14_ctor_move_release_outcomes (none : Option Nat) increment_ok
      ⟨increment_ok, true⟩ ⟨⟨0, none⟩, 0⟩).1⟩

/-- C17: `release()` changes only the `active_` member of the guard it is called on.  In
every program state in which the guard object `i` is live and armed with members `g1`:
after `scope_guard g2(std::move(g1));` the new object `g2` is armed and holds the action
of `g1`; a following `g1.release()` leaves every guard object other than `g1`, and `g2`
in particular, as it was, and leaves the environment as it was; and the destruction of
`g2` then invokes the action exactly once. -/
theorem C17_release_of_source_leaves_destination {W : Type} (s : Sys W) (i : Nat)
    (g1 : scope_guard W) (hi : s.slots[i]? = some { obj := g1, alive := true })
    (h : g1.active_ = true) :
    (∀ (g : scope_guard W) (e : Env W), (release g e).1.fn_ = g.fn_ ∧ (release g e).2 = e) ∧
    (s.step (.move i)).slots[s.slots.length]? =
      some { obj := ⟨g1.fn_, true⟩, alive := true } ∧
    (∀ j : Nat, j ≠ i →
      ((s.step (.move i)).step (.release i)).slots[j]? = (s.step (.move i)).slots[j]?) ∧
    ((s.step (.move i)).step (.release i)).slots[s.slots.length]? =
      some { obj := ⟨g1.fn_, true⟩, alive := true } ∧
    ((s.step (.move i)).step (.release i)).env = s.env ∧
    (((s.step (.move i)).step (.release i)).step (.destroy s.slots.length)).env =
      s.env.invoke g1.fn_ ∧
    (((s.step (.move i)).step (.release i)).step (.destroy s.slots.length)).env.calls =
      s.env.calls + 1 := by
  have hlt : i < s.slots.length := (List.getElem?_eq_some_iff.mp hi).1
  have hne : s.slots.length ≠ i := by omega
  have hmove : s.step (.move i) =
      { slots := s.slots.set i { obj := ⟨g1.fn_, false⟩, alive := true } ++
          [{ obj := ⟨g1.fn_, true⟩, alive := true }],
        env := s.env } := by
    simp only [Sys.step, hi, if_true, move_ctor, h]
  have hnew : (s.step (.move i)).slots[s.slots.length]? =
      some { obj := ⟨g1.fn_, true⟩, alive := true } := by
    rw [hmove]
    simp only
    rw [List.getElem?_append_right (by simp)]
    simp
  have hsrc : (s.step (.move i)).slots[i]? =
      some { obj := ⟨g1.fn_, false⟩, alive := true } := by
    rw [hmove]
    simp only
    rw [List.getElem?_append_left (by simpa using hlt)]
    exact List.getElem?_set_self hlt
  have hrel : (s.step (.move i)).step (.release i) =
      { slots := (s.step (.move i)).slots.set i { obj := ⟨g1.fn_, false⟩, alive := true },
        env := s.env } := by
    have henv : (s.step (.move i)).env = s.env := by rw [hmove]
    generalize s.step (.move i) = t at hsrc henv
    simp only [Sys.step, hsrc, if_true, release, henv]
  have hframe : ∀ j : Nat, j ≠ i →
      ((s.step (.move i)).step (.release i)).slots[j]? = (s.step (.move i)).slots[j]? := by
    intro j hj
    rw [hrel]
    exact List.getElem?_set_ne (Ne.symm hj)
  have hnew2 : ((s.step (.move i)).step (.release i)).slots[s.slots.length]? =
      some { obj := ⟨g1.fn_, true⟩, alive := true } := by
    rw [hframe _ hne, hnew]
  have henv2 : ((s.step (.move i)).step (.release i)).env = s.env := by rw [hrel]
  have hdestroy : (((s.step (.move i)).step (.release i)).step
      (.destroy s.slots.length)).env = s.env.invoke g1.fn_ := by
    generalize (s.step (.move i)).step (.release i) = t at hnew2 henv2
    simp only [Sys.step, hnew2, if_true]
    rw [dtor_env_of_armed _ _ rfl, henv2]
  refine ⟨fun g e => ⟨rfl, rfl⟩, hnew, hframe, hnew2, henv2, hdestroy, ?_⟩
  rw [hdestroy]
  rfl

/-- C17 at a concrete program: the guard with the counter-incrementing action is moved
from and then released; the destruction of the new guard takes the counter from 0 to 1. -/
theorem C17_witness :
    (Sys.init increment_counter ⟨0, 0⟩).slots[0]? =
      some { obj := ⟨increment_counter, true⟩, alive := true } ∧
    (⟨increment_counter, true⟩ : scope_guard Nat).active_ = true ∧
    ((((Sys.init increment_counter ⟨0, 0⟩).step (.move 0)).step (.release 0)).step
      (.destroy 1)).env = Env.invoke increment_counter ⟨0, 0⟩ ∧
    ((((Sys.init increment_counter ⟨0, 0⟩).step (.move 0)).step (.release 0)).step
      (.destroy 1)).env.calls = 0 + 1 :=
  ⟨rfl, rfl,
   (C17_release_of_source_leaves_destination (Sys.init increment_counter ⟨0, 0⟩) 0
      ⟨increment_counter, true⟩ rfl rfl).2.2.2.2.2.1,
   (C17_release_of_source_leaves_destination (Sys.init increment_counter ⟨0, 0⟩) 0
      ⟨increment_counter, true⟩ rfl rfl).2.2.2.2.2.2⟩

end stdx

namespace qlibs

open default_allocator_policy

/-- For a nonzero `std::size_t` value, `grow` is the doubling modulo `2 ^ w`. -/
theorem grow_of_ne_zero (w n : Nat) (h : n ≠ 0) : grow w n = (2 * n) % 2 ^ w := by
  simp [grow, h, Nat.mul_comm]

/-- C11, as stated, fails: for the `std::size_t` value `2 ^ 63`, which is not 0, `grow`
returns 0 and not the number `2 * 2 ^ 63`; for the largest value `2 ^ 64 - 1` it returns
`2 ^ 64 - 2`. -/
theorem C11_counterexample :
    (2 : Nat) ^ 63 < 2 ^ 64 ∧ (2 : Nat) ^ 63 ≠ 0 ∧
    grow 64 (2 ^ 63) = 0 ∧
    grow 64 (2 ^ 63) ≠ 2 * 2 ^ 63 ∧
    grow 64 (2 ^ 64 - 1) = 2 ^ 64 - 2 ∧
    ¬ (∀ n : Nat, n < 2 ^ 64 →
        (n = 0 → grow 64 n = 8) ∧ (n ≠ 0 → grow 64 n = 2 * n)) := by
  refine ⟨by decide, by decide, by decide, by decide, by decide, fun hall => ?_⟩
  have h := (hall (2 ^ 63) (by decide)).2 (by decide)
  revert h
  decide

/-- C11, amended: for every 64-bit `std::size_t` value `n`, `grow n` is 8 when `n` is 0
and is `2 * n` reduced modulo `2 ^ 64` when `n` is not 0; that is the number `2 * n`
whenever `n < 2 ^ 63`. -/
theorem C11_grow_is_8_or_double_mod (n : Nat) (hn : n < 2 ^ 64) :
    (n = 0 → grow 64 n = 8) ∧
    (n ≠ 0 → grow 64 n = (2 * n) % 2 ^ 64) ∧
    (n ≠ 0 → n < 2 ^ 63 → grow 64 n = 2 * n) ∧
    grow 64 n < 2 ^ 64 := by
  refine ⟨fun h => by subst h; decide, fun h => grow_of_ne_zero 64 n h, fun h hlt => ?_, ?_⟩
  · rw [grow_of_ne_zero 64 n h]
    exact Nat.mod_eq_of_lt (by omega)
  · by_cases h : n = 0
    · subst h; decide
    · rw [grow_of_ne_zero 64 n h]
      exact Nat.mod_lt _ (by decide)

/-- C11 amended, at the values 0, 5 and `2 ^ 63`. -/
theorem C11_witness :
    grow 64 0 = 8 ∧ grow 64 5 = 2 * 5 ∧ grow 64 (2 ^ 63) = (2 * 2 ^ 63) % 2 ^ 64 :=
  ⟨(C11_grow_is_8_or_double_mod 0 (by decide)).1 rfl,
   (C11_grow_is_8_or_double_mod 5 (by decide)).2.2.1 (by decide) (by decide),
   (C11_grow_is_8_or_double_mod (2 ^ 63) (by decide)).2.1 (by decide)⟩

/-- C15: with `std::size_t` a `w`-bit unsigned type (`w >= 1`, in particular `w = 64`),
for every value `n` that is not 0, `grow n` is `2 * n` modulo `2 ^ w`; it equals `2 * n`
exactly when `n < 2 ^ (w - 1)`; and `grow (2 ^ (w - 1))` is 0. -/
theorem C15_grow_wraps_modulo (w n : Nat) (hw : 1 ≤ w) (hn0 : n ≠ 0) (hn : n < 2 ^ w) :
    grow w n = (2 * n) % 2 ^ w ∧
    (grow w n = 2 * n ↔ n < 2 ^ (w - 1)) ∧
    grow w (2 ^ (w - 1)) = 0 := by
  have hpow : 2 ^ w = 2 * 2 ^ (w - 1) := by
    obtain ⟨k, rfl⟩ : ∃ k, w = k + 1 := ⟨w - 1, by omega⟩
    simp [Nat.pow_succ, Nat.mul_comm]
  have hpos : 0 < 2 ^ (w - 1) := Nat.pow_pos (by decide)
  refine ⟨grow_of_ne_zero w n hn0, ?_, ?_⟩
  · rw [grow_of_ne_zero w n hn0, Nat.mod_eq_iff_lt (by omega), hpow]
    omega
  · rw [grow_of_ne_zero w _ (by omega), ← hpow]
    exact Nat.mod_self _

/-- C15 at `w = 64`: the value 5 is doubled, the value `2 ^ 63` wraps to 0. -/
theorem C15_witness :
    grow 64 5 = (2 * 5) % 2 ^ 64 ∧
    (grow 64 (2 ^ 63) = 2 * 2 ^ 63 ↔ (2 : Nat) ^ 63 < 2 ^ (64 - 1)) ∧
    grow 64 (2 ^ (64 - 1)) = 0 :=
  ⟨(C15_grow_wraps_modulo 64 5 (by decide) (by decide) (by decide)).1,
   (C15_grow_wraps_modulo 64 (2 ^ 63) (by decide) (by decide) (by decide)).2.1,
   (C15_grow_wraps_modulo 64 5 (by decide) (by decide) (by decide)).2.2⟩

/-- C16: with `std::size_t` a 64-bit unsigned type, for every `n < 2 ^ 63` the value
`grow n` is strictly greater than `n`. -/
theorem C16_grow_strictly_increases (n : Nat) (hn : n < 2 ^ 63) :
    n < grow size_t_bits n := by
  by_cases h : n = 0
  · subst h; decide
  · rw [size_t_bits, grow_of_ne_zero 64 n h, Nat.mod_eq_of_lt (by omega)]
    omega

/-- C16 at the values 0 and `2 ^ 63 - 1`. -/
theorem C16_witness :
    0 < grow size_t_bits 0 ∧ 2 ^ 63 - 1 < grow size_t_bits (2 ^ 63 - 1) :=
  ⟨C16_grow_strictly_increases 0 (by decide),
   C16_grow_strictly_increases (2 ^ 63 - 1) (by decide)⟩

end qlibs
